import Mathlib

/-!
Verification of the `loris` resolver module (`src/loris/resolver.py`).

The module maps image identifiers to filesystem paths plus a format tag.
We shallowly embed the Python code: the filesystem is an explicit state
(sets of file paths and directory paths), Python exceptions become an
error type threaded through `Except`, and every filesystem mutation the
code performs is additionally recorded in an event trace so that claims
about writes, fetches and renames can be stated.

Python library functions used by the source (`urllib.unquote`,
`os.path.join`, `os.path.dirname`, `os.makedirs`, `shutil.copy`,
`urllib.urlretrieve`) are embedded below, each faithful to the CPython 2
behaviour the source relies on.
-/

namespace Loris

/-- Value of a single hex digit, as used by `urllib.unquote`'s `_hextochr`
table (both upper and lower case digits are accepted). -/
def hexVal (c : Char) : Option Nat :=
  if '0' ≤ c ∧ c ≤ '9' then some (c.toNat - '0'.toNat)
  else if 'a' ≤ c ∧ c ≤ 'f' then some (c.toNat - 'a'.toNat + 10)
  else if 'A' ≤ c ∧ c ≤ 'F' then some (c.toNat - 'A'.toNat + 10)
  else none

/-- `urllib.unquote` from Python 2, over the character list of the string:
a `%` followed by two hex digits decodes to the corresponding byte;
any other `%` is kept literally and scanning resumes at the next
character.  (CPython splits on `%` and decodes each segment head via
`_hextochr`; this scan is the same function.) -/
def unquoteList : List Char → List Char
  | [] => []
  | '%' :: a :: b :: rest2 =>
    match hexVal a, hexVal b with
    | some x, some y => Char.ofNat (16 * x + y) :: unquoteList rest2
    | _, _ => '%' :: unquoteList (a :: b :: rest2)
  | '%' :: rest => '%' :: unquoteList rest
  | c :: rest => c :: unquoteList rest

/-- `urllib.unquote` on strings. -/
def unquote (s : String) : String := ⟨unquoteList s.data⟩

/-- `os.path.join(a, b)` for POSIX paths, two arguments (the only form the
source uses): an absolute `b` discards `a`; otherwise the parts are
joined with `/` unless `a` is empty or already ends with `/`. -/
def pathJoin (a b : String) : String :=
  if b.data.head? = some '/' then b
  else if a = "" ∨ a.data.getLast? = some '/' then a ++ b
  else a ++ "/" ++ b

/-- `p[: p.rfind('/') + 1]` — the prefix of `p` up to and including the
last `/`, empty when there is no `/`.  Helper for `dirname`. -/
def upToLastSlash : List Char → List Char
  | [] => []
  | c :: rest =>
    match upToLastSlash rest with
    | [] => if c = '/' then [c] else []
    | r => c :: r

/-- `os.path.dirname` for POSIX paths: the part before the final `/`;
trailing slashes are stripped unless the head is all slashes. -/
def dirname (p : String) : String :=
  let head := upToLastSlash p.data
  if head ≠ [] ∧ ¬ head.all (· = '/') then
    ⟨(head.reverse.dropWhile (· = '/')).reverse⟩
  else ⟨head⟩

/-- Python `str.split('.')` over the character list: maximal runs between
dots, with empty segments for leading/trailing/doubled dots. -/
def splitOnDot : List Char → List (List Char)
  | [] => [[]]
  | c :: rest =>
    if c = '.' then [] :: splitOnDot rest
    else
      match splitOnDot rest with
      | [] => [[c]]
      | s :: ss => (c :: s) :: ss

/-- Python negative indexing `xs[-1]`: the last element of a list (the
default is unreachable on the nonempty lists it is applied to). -/
def pyLast {α : Type} (d : α) : List α → α
  | [] => d
  | [a] => a
  | _ :: b :: t => pyLast d (b :: t)

/-- Equality of `Except` values is decidable when both components are. -/
instance {ε α : Type} [DecidableEq ε] [DecidableEq α] : DecidableEq (Except ε α) :=
  fun x y =>
    match x, y with
    | .ok a, .ok b =>
      if h : a = b then isTrue (by rw [h])
      else isFalse (fun e => h (Except.ok.inj e))
    | .error a, .error b =>
      if h : a = b then isTrue (by rw [h])
      else isFalse (fun e => h (Except.error.inj e))
    | .ok _, .error _ => isFalse (fun e => Except.noConfusion e)
    | .error _, .ok _ => isFalse (fun e => Except.noConfusion e)

/-- Python exceptions the resolver module can raise. -/
inductive PyExc where
  | resolverException (httpStatus : Nat) (message : String)
  | osErrorFileExists (path : String)
  | ioErrorNoSuchFile (path : String)
  | nameError (name : String)
  | notImplementedError (message : String)
deriving DecidableEq, Repr

/-- Filesystem state: the set of existing regular files and the set of
existing directories, as path strings. -/
structure FS where
  files : List String
  dirs : List String
deriving DecidableEq, Repr

/-- `os.path.exists`: true when a file or a directory exists at `p`. -/
def FS.Exists (fs : FS) (p : String) : Prop :=
  p ∈ fs.files ∨ p ∈ fs.dirs

instance (fs : FS) (p : String) : Decidable (fs.Exists p) :=
  inferInstanceAs (Decidable (_ ∨ _))

/-- Record a new regular file at `p` (the effect of `shutil.copy` /
`urlretrieve` on the destination). -/
def FS.addFile (fs : FS) (p : String) : FS :=
  { fs with files := p :: fs.files }

/-- Record a new directory at `p`. -/
def FS.addDir (fs : FS) (p : String) : FS :=
  { fs with dirs := p :: fs.dirs }

/-- `os.makedirs(d)`: raises `OSError` (EEXIST) when something already
exists at `d`, otherwise creates the directory.  (Ancestor directories
are not tracked individually; the resolvers only ever test the leaf.) -/
def makedirs (fs : FS) (d : String) : Except PyExc FS :=
  if fs.Exists d then .error (.osErrorFileExists d)
  else .ok (fs.addDir d)

/-- `shutil.copy(src, dst)`: raises `IOError` when the source is absent,
otherwise writes the destination file. -/
def copy (fs : FS) (src dst : String) : Except PyExc FS :=
  if fs.Exists src then .ok (fs.addFile dst)
  else .error (.ioErrorNoSuchFile src)

/-- Filesystem events a `resolve` call can emit.  `renameEv` is never
emitted by any code path of the source; having the constructor lets
theorems state that no rename occurs. -/
inductive Ev where
  | makedirsOk (dir : String)
  | copyFile (src dst : String)
  | urlretrieveEv (url dst : String)
  | renameEv (src dst : String)
deriving DecidableEq, Repr

/-- Is the event a fetcher invocation (`shutil.copy` or `urlretrieve`)? -/
def Ev.isFetch : Ev → Bool
  | .copyFile _ _ => true
  | .urlretrieveEv _ _ => true
  | _ => false

/-- Is the event a rename? -/
def Ev.isRename : Ev → Bool
  | .renameEv _ _ => true
  | _ => false

/-- Public half of the not-found message built by `SimpleFSResolver.resolve`
and `SourceImageCachingResolver.resolve`:
`'Source image not found for identifier: %s.' % (ident,)`. -/
def publicNotFoundMsg (ident : String) : String :=
  "Source image not found for identifier: " ++ ident ++ "."

/-- Log half of the not-found message:
`'Source image not found at %s for identifier: %s.' % (fp, ident)`. -/
def logNotFoundMsg (fp ident : String) : String :=
  "Source image not found at " ++ fp ++ " for identifier: " ++ ident ++ "."

/-- Configuration for `SimpleFSResolver`: the single key it reads. -/
structure SimpleFSConfig where
  src_img_root : String
deriving DecidableEq, Repr

/-- Configuration for the two caching resolvers: the two keys they read. -/
structure CachingConfig where
  cache_root : String
  source_root : String
deriving DecidableEq, Repr

namespace SimpleFSResolver

/-- `SimpleFSResolver._format_from_ident`: `ident.split('.')[-1]`. -/
def _format_from_ident (ident : String) : String :=
  ⟨pyLast [] (splitOnDot ident.data)⟩

/-- `SimpleFSResolver.is_resolvable`: unquote, join onto `src_img_root`
(named `cache_root` inside the class), test existence. -/
def is_resolvable (cfg : SimpleFSConfig) (fs : FS) (ident : String) : Bool :=
  decide (fs.Exists (pathJoin cfg.src_img_root (unquote ident)))

/-- `SimpleFSResolver.resolve`: unquote, join onto the root; raise
`ResolverException(404, public_message)` after emitting `log_message` via
`logger.warn` when the path is absent; otherwise return the path and the
format inferred from the identifier.  The third component is the list of
warning-level log messages emitted (debug-level logging is omitted); the
second component is the filesystem after the call, which this read-only
resolver never changes. -/
def resolve (cfg : SimpleFSConfig) (fs : FS) (ident : String) :
    Except PyExc (String × String) × FS × List String :=
  let ident := unquote ident
  let fp := pathJoin cfg.src_img_root ident
  if fs.Exists fp then
    (.ok (fp, _format_from_ident ident), fs, [])
  else
    (.error (.resolverException 404 (publicNotFoundMsg ident)), fs,
      [logNotFoundMsg fp ident])

end SimpleFSResolver

namespace WebBPLResolver

/-- `WebBPLResolver._format_from_ident`: default `'jp2'` when the
identifier has no dot, else `ident.split('.')[-1]`. -/
def _format_from_ident (ident : String) : String :=
  if '.' ∉ ident.data then "jp2"
  else ⟨pyLast [] (splitOnDot ident.data)⟩

/-- `WebBPLResolver.is_resolvable`: existence test on the cache path. -/
def is_resolvable (cfg : CachingConfig) (fs : FS) (ident : String) : Bool :=
  decide (fs.Exists (pathJoin cfg.cache_root (unquote ident)))

/-- `WebBPLResolver.resolve`.  On a cache hit the cached path is returned.
On a miss the origin URL is `source_root + ident +
'/datastreams/accessMaster/content'` (plain string concatenation, not a
join); `makedirs(dirname(local_fp))` is wrapped in a bare `except:` whose
handler only logs, so every directory-creation failure is swallowed; then
`urlretrieve(fp, local_fp)` stores the HTTP response body at `local_fp` —
Python 2's `urlretrieve` does not raise on an HTTP error status, it saves
whatever the server sent (an error page included) — and the call returns
the cache path.  Events record the successful `makedirs` and the
retrieval. -/
def resolve (cfg : CachingConfig) (fs : FS) (ident : String) :
    Except PyExc (String × String) × FS × List Ev :=
  let ident := unquote ident
  let local_fp := pathJoin cfg.cache_root ident
  if fs.Exists local_fp then
    (.ok (local_fp, _format_from_ident ident), fs, [])
  else
    let fp := cfg.source_root ++ ident ++ "/datastreams/accessMaster/content"
    match makedirs fs (dirname local_fp) with
    | .ok fs1 =>
      (.ok (local_fp, _format_from_ident ident), fs1.addFile local_fp,
        [.makedirsOk (dirname local_fp), .urlretrieveEv fp local_fp])
    | .error _ =>
      (.ok (local_fp, _format_from_ident ident), fs.addFile local_fp,
        [.urlretrieveEv fp local_fp])

end WebBPLResolver

namespace SourceImageCachingResolver

/-- `SourceImageCachingResolver._format_from_ident`: `ident.split('.')[-1]`. -/
def _format_from_ident (ident : String) : String :=
  ⟨pyLast [] (splitOnDot ident.data)⟩

/-- `SourceImageCachingResolver.is_resolvable`: existence test on the
cache path. -/
def is_resolvable (cfg : CachingConfig) (fs : FS) (ident : String) : Bool :=
  decide (fs.Exists (pathJoin cfg.cache_root (unquote ident)))

/-- `SourceImageCachingResolver.resolve`.  Cache hit: return the cache
path.  Miss: compute `fp = join(source_root, ident)`; raise
`ResolverException(404, public_message)` when `fp` is absent; otherwise
run `makedirs(dirname(local_fp))` — unguarded, so its `OSError`
propagates when the directory already exists — then `copy(fp, local_fp)`
and return the cache path.  The filesystem component is the state after
the call, including on error paths; events record directory creation and
the copy. -/
def resolve (cfg : CachingConfig) (fs : FS) (ident : String) :
    Except PyExc (String × String) × FS × List Ev :=
  let ident := unquote ident
  let local_fp := pathJoin cfg.cache_root ident
  if fs.Exists local_fp then
    (.ok (local_fp, _format_from_ident ident), fs, [])
  else
    let fp := pathJoin cfg.source_root ident
    if fs.Exists fp then
      match makedirs fs (dirname local_fp) with
      | .error e => (.error e, fs, [])
      | .ok fs1 =>
        match copy fs1 fp local_fp with
        | .error e => (.error e, fs1, [.makedirsOk (dirname local_fp)])
        | .ok fs2 =>
          (.ok (local_fp, _format_from_ident ident), fs2,
            [.makedirsOk (dirname local_fp), .copyFile fp local_fp])
    else
      (.error (.resolverException 404 (publicNotFoundMsg ident)), fs, [])

end SourceImageCachingResolver

namespace _AbstractResolver

/-- Names bound at module level in `resolver.py` (imports and the class
statements), consulted by Python name resolution after the local scope. -/
def moduleLevelNames : List String :=
  ["getLogger", "loris_exception", "join", "exists", "isfile", "unquote",
   "copy", "makedirs", "dirname", "ResolverException", "urlretrieve",
   "logger", "_AbstractResolver", "SimpleFSResolver", "WebBPLResolver",
   "SourceImageCachingResolver"]

/-- Python name lookup inside a method body of `_AbstractResolver`: the
local string-valued bindings first, then the module-level names (whose
values, functions and classes, are rendered as placeholder strings — the
claims only depend on which names are bound).  `none` means the lookup
raises `NameError`. -/
def lookupName (n : String) (locals : List (String × String)) : Option String :=
  match locals.lookup n with
  | some v => some v
  | none => if n ∈ moduleLevelNames then some ("<module-level " ++ n ++ ">") else none

/-- `_AbstractResolver.is_resolvable`: binds `e = self.__class__.__name__`
and then evaluates `'is_resolvable() not implemented for %s' % (cn,)`.
Python evaluates the `%` operand before `raise` runs, so the undefined
name `cn` is looked up first; only if it were bound would the
`NotImplementedError` be raised. -/
def is_resolvable (className ident : String) : Except PyExc Bool :=
  let e := className
  let locals := [("self", "<resolver instance>"), ("ident", ident), ("e", e)]
  match lookupName "cn" locals with
  | some v => .error (.notImplementedError ("is_resolvable() not implemented for " ++ v))
  | none => .error (.nameError "cn")

/-- `_AbstractResolver.resolve`: same shape as `is_resolvable`, formatting
`'resolve() not implemented for %s' % (cn,)` with the undefined `cn`. -/
def resolve (className ident : String) : Except PyExc (String × String) :=
  let e := className
  let locals := [("self", "<resolver instance>"), ("ident", ident), ("e", e)]
  match lookupName "cn" locals with
  | some v => .error (.notImplementedError ("resolve() not implemented for " ++ v))
  | none => .error (.nameError "cn")

end _AbstractResolver

/-!
Interleaving model for concurrent `WebBPLResolver.resolve` calls.

One call is split at its filesystem operations into atomic steps:
the cache-existence check, the (bare-except-guarded) `makedirs`, and
`urlretrieve`.  Two callers share the filesystem; a schedule says which
caller performs its next step.  The source has no lock of any kind, so
the steps of the two callers interleave freely.
-/

/-- Program counter of one in-flight `WebBPLResolver.resolve` call. -/
inductive WPhase where
  /-- about to perform the `exists(local_fp)` check -/
  | start
  /-- saw a cache miss; about to run the guarded `makedirs` -/
  | missed
  /-- past `makedirs`; about to run `urlretrieve` -/
  | dirsDone
  /-- returned `(local_fp, format)` -/
  | done
deriving DecidableEq, Repr

/-- One atomic step of a `WebBPLResolver.resolve` call at phase `p` on the
shared filesystem, mirroring the statements of the source between
filesystem operations. -/
def webStep (cfg : CachingConfig) (ident : String) (fs : FS) :
    WPhase → WPhase × FS × List Ev
  | .start =>
    let local_fp := pathJoin cfg.cache_root (unquote ident)
    if fs.Exists local_fp then (.done, fs, [])
    else (.missed, fs, [])
  | .missed =>
    let d := dirname (pathJoin cfg.cache_root (unquote ident))
    match makedirs fs d with
    | .ok fs1 => (.dirsDone, fs1, [.makedirsOk d])
    | .error _ => (.dirsDone, fs, [])
  | .dirsDone =>
    let local_fp := pathJoin cfg.cache_root (unquote ident)
    let fp := cfg.source_root ++ unquote ident ++ "/datastreams/accessMaster/content"
    (.done, fs.addFile local_fp, [.urlretrieveEv fp local_fp])
  | .done => (.done, fs, [])

/-- Joint state of two concurrent `resolve` calls for the same identifier:
each caller's phase, the shared filesystem, and the accumulated event
trace tagged with the caller (`false` for A, `true` for B). -/
structure TwoCallers where
  phaseA : WPhase
  phaseB : WPhase
  fs : FS
  trace : List (Bool × Ev)
deriving DecidableEq, Repr

/-- Run one scheduled step: caller `false` is A, caller `true` is B. -/
def schedStep (cfg : CachingConfig) (ident : String) (st : TwoCallers)
    (who : Bool) : TwoCallers :=
  if who then
    let (p, fs, evs) := webStep cfg ident st.fs st.phaseB
    { st with phaseB := p, fs := fs, trace := st.trace ++ evs.map ((true, ·)) }
  else
    let (p, fs, evs) := webStep cfg ident st.fs st.phaseA
    { st with phaseA := p, fs := fs, trace := st.trace ++ evs.map ((false, ·)) }

/-- Run a whole schedule of interleaved steps. -/
def runSched (cfg : CachingConfig) (ident : String) (st : TwoCallers) :
    List Bool → TwoCallers
  | [] => st
  | who :: rest => runSched cfg ident (schedStep cfg ident st who) rest

/-- Number of fetcher invocations in a tagged trace. -/
def fetchCount (tr : List (Bool × Ev)) : Nat :=
  tr.countP (fun e => (e.2).isFetch)

/-! ### Helper lemmas -/

/-- `str.split('.')` never yields an empty list of segments. -/
theorem splitOnDot_ne_nil (l : List Char) : splitOnDot l ≠ [] := by
  cases l with
  | nil => simp [splitOnDot]
  | cons c rest =>
    simp only [splitOnDot]
    split
    · simp
    · split <;> simp

/-- `splitOnDot` always has a head segment. -/
theorem splitOnDot_cons_shape (l : List Char) :
    ∃ s ss, splitOnDot l = s :: ss := by
  cases e : splitOnDot l with
  | nil => exact absurd e (splitOnDot_ne_nil l)
  | cons s ss => exact ⟨s, ss, rfl⟩

/-- A dot-free string splits into the single segment that is the whole
string. -/
theorem splitOnDot_of_not_mem (l : List Char) (h : '.' ∉ l) :
    splitOnDot l = [l] := by
  induction l with
  | nil => rfl
  | cons c rest ih =>
    have hc : c ≠ '.' := fun e => h (by rw [e]; exact List.mem_cons_self _ _)
    have hr : '.' ∉ rest := fun m => h (List.mem_cons_of_mem _ m)
    simp only [splitOnDot, if_neg hc, ih hr]

/-- A string containing a dot splits into at least two segments. -/
theorem two_le_splitOnDot_length (l : List Char) (h : '.' ∈ l) :
    2 ≤ (splitOnDot l).length := by
  induction l with
  | nil => cases h
  | cons c rest ih =>
    by_cases hc : c = '.'
    · have h1 : 0 < (splitOnDot rest).length :=
        List.length_pos.mpr (splitOnDot_ne_nil rest)
      simp only [splitOnDot, if_pos hc, List.length_cons]
      omega
    · have hr : '.' ∈ rest := by
        cases List.mem_cons.mp h with
        | inl e => exact absurd e.symm hc
        | inr m => exact m
      obtain ⟨s, ss, hs⟩ := splitOnDot_cons_shape rest
      have h2 := ih hr
      rw [hs, List.length_cons] at h2
      simp only [splitOnDot, if_neg hc, hs, List.length_cons]
      omega

/-- The last segment of `a ++ "." ++ b` is the last segment of `b`. -/
theorem splitOnDot_pyLast_append (a b : List Char) :
    pyLast [] (splitOnDot (a ++ '.' :: b)) = pyLast [] (splitOnDot b) := by
  induction a with
  | nil =>
    obtain ⟨s, ss, hs⟩ := splitOnDot_cons_shape b
    have e : splitOnDot ('.' :: b) = [] :: splitOnDot b := by
      simp [splitOnDot]
    rw [List.nil_append, e, hs]
    rfl
  | cons c a ih =>
    by_cases hc : c = '.'
    · subst hc
      obtain ⟨s, ss, hs⟩ := splitOnDot_cons_shape (a ++ '.' :: b)
      have e : splitOnDot ('.' :: (a ++ '.' :: b)) = [] :: splitOnDot (a ++ '.' :: b) := by
        simp [splitOnDot]
      rw [List.cons_append, e, hs]
      rw [hs] at ih
      exact ih
    · obtain ⟨s, ss, hs⟩ := splitOnDot_cons_shape (a ++ '.' :: b)
      have hlen := two_le_splitOnDot_length (a ++ '.' :: b)
        (List.mem_append_right a (List.mem_cons_self _ _))
      rw [hs] at hlen ih
      obtain ⟨t, ts, hts⟩ : ∃ t ts, ss = t :: ts := by
        cases ss with
        | nil => simp at hlen
        | cons t ts => exact ⟨t, ts, rfl⟩
      subst hts
      have e : splitOnDot (c :: (a ++ '.' :: b)) = (c :: s) :: t :: ts := by
        simp only [splitOnDot, if_neg hc, hs]
      rw [List.cons_append, e]
      exact ih

/-- `unquote` is the identity on percent-free strings. -/
theorem unquoteList_of_not_mem (l : List Char) (h : '%' ∉ l) :
    unquoteList l = l := by
  induction l with
  | nil => rfl
  | cons c rest ih =>
    have hc : c ≠ '%' := fun e => h (by rw [e]; exact List.mem_cons_self _ _)
    have hr : '%' ∉ rest := fun m => h (List.mem_cons_of_mem _ m)
    have e : unquoteList (c :: rest) = c :: unquoteList rest := by
      cases rest with
      | nil => simp [unquoteList, hc]
      | cons a rest1 =>
        cases rest1 with
        | nil => simp [unquoteList, hc]
        | cons b rest2 => simp [unquoteList, hc]
    rw [e, ih hr]

/-- Existence is preserved when a directory is added. -/
theorem FS.Exists.addDir {fs : FS} {p : String} (h : fs.Exists p) (d : String) :
    (fs.addDir d).Exists p := by
  cases h with
  | inl hf => exact Or.inl hf
  | inr hd => exact Or.inr (List.mem_cons_of_mem _ hd)

/-- A freshly added file exists. -/
theorem FS.exists_addFile (fs : FS) (p : String) : (fs.addFile p).Exists p :=
  Or.inl (List.mem_cons_self _ _)

/-- The public and the log not-found messages are always distinct: they
diverge at the word after `found`. -/
theorem publicNotFoundMsg_ne_logNotFoundMsg (fp ident : String) :
    publicNotFoundMsg ident ≠ logNotFoundMsg fp ident := by
  intro h
  have hd : (publicNotFoundMsg ident).data = (logNotFoundMsg fp ident).data := by
    rw [h]
  simp only [publicNotFoundMsg, logNotFoundMsg, String.data_append,
    List.append_assoc] at hd
  have h2 := congrArg (List.take 26) hd
  have t1 : 26 ≤ "Source image not found for identifier: ".data.length := by decide
  have t2 : 26 ≤ "Source image not found at ".data.length := by decide
  rw [List.take_append_of_le_length t1, List.take_append_of_le_length t2] at h2
  exact absurd h2 (by decide)

/-! ### Claim theorems -/

/-- C1 (code_bug): on a cache miss, `SourceImageCachingResolver.resolve`
invokes the fetcher (`shutil.copy`) with destination equal to the final
cache path itself — there is no temporary path and no rename anywhere in
the emitted trace.  Evaluated at cache_root `/cache`, source_root `/src`,
identifier `a/b.jp2` with the origin file present and the cache entry
absent. -/
theorem C1_sicr_writes_directly_to_final_cache_path :
    SourceImageCachingResolver.resolve ⟨"/cache", "/src"⟩
        ⟨["/src/a/b.jp2"], ["/cache", "/src", "/src/a"]⟩ "a/b.jp2" =
      (.ok ("/cache/a/b.jp2", "jp2"),
        ⟨["/cache/a/b.jp2", "/src/a/b.jp2"], ["/cache/a", "/cache", "/src", "/src/a"]⟩,
        [.makedirsOk "/cache/a", .copyFile "/src/a/b.jp2" "/cache/a/b.jp2"]) ∧
    pathJoin "/cache" (unquote "a/b.jp2") = "/cache/a/b.jp2" ∧
    ([Ev.makedirsOk "/cache/a",
      Ev.copyFile "/src/a/b.jp2" "/cache/a/b.jp2"].countP Ev.isRename) = 0 := by
  decide

/-- C2 (code_bug): there is no per-identifier lock; under the interleaving
in which both concurrent `WebBPLResolver.resolve` calls for the same
missing identifier pass the cache-existence check before either fetches,
both callers invoke the fetcher (two `urlretrieve` invocations, not
one) and both run to completion. -/
theorem C2_no_lock_two_concurrent_fetches :
    (runSched ⟨"/cache", "http://repo/objects/"⟩ "x.jp2"
        ⟨.start, .start, ⟨[], ["/cache"]⟩, []⟩
        [false, true, false, true, false, true]).phaseA = .done ∧
    (runSched ⟨"/cache", "http://repo/objects/"⟩ "x.jp2"
        ⟨.start, .start, ⟨[], ["/cache"]⟩, []⟩
        [false, true, false, true, false, true]).phaseB = .done ∧
    fetchCount (runSched ⟨"/cache", "http://repo/objects/"⟩ "x.jp2"
        ⟨.start, .start, ⟨[], ["/cache"]⟩, []⟩
        [false, true, false, true, false, true]).trace = 2 := by
  decide

/-- C3 (code_bug): there is no path-safety guard.  A percent-encoded
absolute identifier decodes to `/etc/secret.tif`; `os.path.join` lets it
override the configured root, `SimpleFSResolver.resolve` performs the
existence check (filesystem I/O) and returns the escaped path with no
`InvalidIdentifier` failure, `is_resolvable` answers true, and on the
caching resolver a `../` identifier reaches the fetcher. -/
theorem C3_traversal_identifier_escapes_root :
    (SimpleFSResolver.resolve ⟨"/images"⟩ ⟨["/etc/secret.tif"], ["/images"]⟩
        "%2Fetc%2Fsecret.tif").1 = .ok ("/etc/secret.tif", "tif") ∧
    SimpleFSResolver.is_resolvable ⟨"/images"⟩ ⟨["/etc/secret.tif"], ["/images"]⟩
        "%2Fetc%2Fsecret.tif" = true ∧
    (Ev.copyFile "/src/../x.jp2" "/cache/../x.jp2") ∈
      (SourceImageCachingResolver.resolve ⟨"/cache", "/src"⟩
        ⟨["/src/../x.jp2"], ["/cache", "/src"]⟩ "../x.jp2").2.2 := by
  decide

/-- C4 (counterexample): on the plain-filesystem resolver an identifier
without a dot does not fail — `'abc'.split('.')[-1]` is `'abc'`, so
`resolve` succeeds and reports the whole identifier as the format. -/
theorem C4_plain_resolver_no_error_without_extension :
    (SimpleFSResolver.resolve ⟨"/images"⟩ ⟨["/images/abc"], ["/images"]⟩
        "abc").1 = .ok ("/images/abc", "abc") ∧
    SimpleFSResolver._format_from_ident "abc" = "abc" := by
  decide

/-- C4 (amended): when the identifier contains a dot the format is the
substring after the last dot in every variant; without a dot the
repository-backed `WebBPLResolver` defaults to `jp2` while
`SimpleFSResolver` and `SourceImageCachingResolver` return the entire
identifier (no error is raised). -/
theorem C4_format_inference_rule :
    (∀ a b : List Char, '.' ∉ b →
      SimpleFSResolver._format_from_ident ⟨a ++ '.' :: b⟩ = ⟨b⟩ ∧
      SourceImageCachingResolver._format_from_ident ⟨a ++ '.' :: b⟩ = ⟨b⟩ ∧
      WebBPLResolver._format_from_ident ⟨a ++ '.' :: b⟩ = ⟨b⟩) ∧
    (∀ l : List Char, '.' ∉ l →
      SimpleFSResolver._format_from_ident ⟨l⟩ = ⟨l⟩ ∧
      SourceImageCachingResolver._format_from_ident ⟨l⟩ = ⟨l⟩ ∧
      WebBPLResolver._format_from_ident ⟨l⟩ = "jp2") := by
  constructor
  · intro a b hb
    have hmem : '.' ∈ a ++ '.' :: b := List.mem_append_right a (List.mem_cons_self _ _)
    have hlast : pyLast [] (splitOnDot (a ++ '.' :: b)) = b := by
      rw [splitOnDot_pyLast_append, splitOnDot_of_not_mem b hb]
      rfl
    have hdot : ¬ ('.' ∉ (String.mk (a ++ '.' :: b)).data) := fun hn => hn hmem
    refine ⟨?_, ?_, ?_⟩
    · simp only [SimpleFSResolver._format_from_ident, hlast]
    · simp only [SourceImageCachingResolver._format_from_ident, hlast]
    · simp only [WebBPLResolver._format_from_ident, if_neg hdot, hlast]
  · intro l hl
    have hlast : pyLast [] (splitOnDot l) = l := by
      rw [splitOnDot_of_not_mem l hl]
      rfl
    have hdot : '.' ∉ (String.mk l).data := hl
    refine ⟨?_, ?_, ?_⟩
    · simp only [SimpleFSResolver._format_from_ident, hlast]
    · simp only [SourceImageCachingResolver._format_from_ident, hlast]
    · simp only [WebBPLResolver._format_from_ident, if_pos hdot]

/-- C4 (witness): the format-inference rule applied at the spec table
entries `abc.jpg`, `abc.tar.jp2` and the dot-free `abc`. -/
theorem C4_format_inference_rule_witness :
    (String.mk ("abc.tar".data ++ '.' :: "jp2".data) = "abc.tar.jp2" ∧
      String.mk ("abc".data ++ '.' :: "jpg".data) = "abc.jpg") ∧
    (SimpleFSResolver._format_from_ident (String.mk ("abc".data ++ '.' :: "jpg".data))
        = String.mk "jpg".data ∧
      SimpleFSResolver._format_from_ident (String.mk ("abc.tar".data ++ '.' :: "jp2".data))
        = String.mk "jp2".data) ∧
    (SimpleFSResolver._format_from_ident (String.mk "abc".data) = String.mk "abc".data ∧
      WebBPLResolver._format_from_ident (String.mk "abc".data) = "jp2") :=
  ⟨⟨by decide, by decide⟩,
    ⟨(C4_format_inference_rule.1 "abc".data "jpg".data (by decide)).1,
      (C4_format_inference_rule.1 "abc.tar".data "jp2".data (by decide)).1⟩,
    ⟨(C4_format_inference_rule.2 "abc".data (by decide)).1,
      (C4_format_inference_rule.2 "abc".data (by decide)).2.2⟩⟩

/-- C5 (code_bug): on `WebBPLResolver` with the cache entry absent and the
origin absent, `resolve` does not fail with any not-found error: the
origin-existence check is commented out in the source, `urlretrieve`
stores the HTTP response body (an error page included) at the final
cache path, and the call returns success — leaving that stored body
behind as cache state. -/
theorem C5_webbpl_returns_ok_on_absent_origin :
    WebBPLResolver.resolve ⟨"/cache", "http://repo/objects/"⟩
        ⟨[], ["/cache"]⟩ "missing.jp2" =
      (.ok ("/cache/missing.jp2", "jp2"),
        ⟨["/cache/missing.jp2"], ["/cache"]⟩,
        [.urlretrieveEv "http://repo/objects/missing.jp2/datastreams/accessMaster/content"
          "/cache/missing.jp2"]) := by
  decide

/-- C6 (confirmed): `SimpleFSResolver.resolve` fails with
`ResolverException(404, public_message)` and emits a separate, always
distinct, detailed log message when no file exists at the root joined
with the canonical identifier; otherwise it returns the joined path and
the inferred format without mutating the filesystem. -/
theorem C6_simplefs_resolve_contract (cfg : SimpleFSConfig) (fs : FS) (ident : String) :
    (¬ fs.Exists (pathJoin cfg.src_img_root (unquote ident)) →
      SimpleFSResolver.resolve cfg fs ident =
        (.error (.resolverException 404 (publicNotFoundMsg (unquote ident))), fs,
          [logNotFoundMsg (pathJoin cfg.src_img_root (unquote ident)) (unquote ident)]) ∧
      publicNotFoundMsg (unquote ident) ≠
        logNotFoundMsg (pathJoin cfg.src_img_root (unquote ident)) (unquote ident)) ∧
    (fs.Exists (pathJoin cfg.src_img_root (unquote ident)) →
      SimpleFSResolver.resolve cfg fs ident =
        (.ok (pathJoin cfg.src_img_root (unquote ident),
          SimpleFSResolver._format_from_ident (unquote ident)), fs, [])) := by
  constructor
  · intro h
    refine ⟨?_, publicNotFoundMsg_ne_logNotFoundMsg _ _⟩
    simp only [SimpleFSResolver.resolve, if_neg h]
  · intro h
    simp only [SimpleFSResolver.resolve, if_pos h]

/-- C6 (witness): the contract evaluated at root `/images`, a filesystem
holding only `/images/a.jp2`, and the absent identifier `nope.tif`. -/
theorem C6_simplefs_resolve_contract_witness :
    (¬ (FS.mk ["/images/a.jp2"] ["/images"]).Exists
        (pathJoin "/images" (unquote "nope.tif"))) ∧
    (SimpleFSResolver.resolve ⟨"/images"⟩ ⟨["/images/a.jp2"], ["/images"]⟩ "nope.tif" =
      (.error (.resolverException 404 (publicNotFoundMsg (unquote "nope.tif"))),
        ⟨["/images/a.jp2"], ["/images"]⟩,
        [logNotFoundMsg (pathJoin "/images" (unquote "nope.tif")) (unquote "nope.tif")]) ∧
      publicNotFoundMsg (unquote "nope.tif") ≠
        logNotFoundMsg (pathJoin "/images" (unquote "nope.tif")) (unquote "nope.tif")) :=
  ⟨by decide,
    (C6_simplefs_resolve_contract ⟨"/images"⟩ ⟨["/images/a.jp2"], ["/images"]⟩
      "nope.tif").1 (by decide)⟩

/-- C7 (confirmed): after any successful
`SourceImageCachingResolver.resolve`, `is_resolvable` answers true on the
resulting filesystem, and a second `resolve` returns the identical
(path, format) pair with the filesystem unchanged and an empty event
trace — no fetcher invocation and no filesystem write. -/
theorem C7_sicr_resolve_idempotent_after_success (cfg : CachingConfig)
    (fs fs2 : FS) (ident : String) (out : String × String) (evs : List Ev)
    (h : SourceImageCachingResolver.resolve cfg fs ident = (.ok out, fs2, evs)) :
    SourceImageCachingResolver.is_resolvable cfg fs2 ident = true ∧
    SourceImageCachingResolver.resolve cfg fs2 ident = (.ok out, fs2, []) := by
  by_cases h1 : fs.Exists (pathJoin cfg.cache_root (unquote ident))
  · simp only [SourceImageCachingResolver.resolve, if_pos h1, Prod.mk.injEq,
      Except.ok.injEq] at h
    obtain ⟨ho, hfs, hevs⟩ := h
    subst hfs
    constructor
    · simp only [SourceImageCachingResolver.is_resolvable, decide_eq_true_eq]
      exact h1
    · simp only [SourceImageCachingResolver.resolve, if_pos h1, ho]
  · simp only [SourceImageCachingResolver.resolve, if_neg h1] at h
    by_cases h2 : fs.Exists (pathJoin cfg.source_root (unquote ident))
    · simp only [if_pos h2] at h
      by_cases h3 : fs.Exists (dirname (pathJoin cfg.cache_root (unquote ident)))
      · simp only [makedirs, if_pos h3] at h
        simp at h
      · simp only [makedirs, if_neg h3] at h
        have h4 : (fs.addDir (dirname (pathJoin cfg.cache_root (unquote ident)))).Exists
            (pathJoin cfg.source_root (unquote ident)) := h2.addDir _
        simp only [copy, if_pos h4, Prod.mk.injEq, Except.ok.injEq] at h
        obtain ⟨ho, hfs, hevs⟩ := h
        have hx : fs2.Exists (pathJoin cfg.cache_root (unquote ident)) := by
          rw [← hfs]
          exact FS.exists_addFile _ _
        constructor
        · simp only [SourceImageCachingResolver.is_resolvable, decide_eq_true_eq]
          exact hx
        · simp only [SourceImageCachingResolver.resolve, if_pos hx, ho]
    · simp only [if_neg h2] at h
      simp at h

/-- C7 (witness): a successful cache-hit resolve of `x.jp2`, after which
`is_resolvable` is true and `resolve` repeats the same result with no
events. -/
theorem C7_sicr_resolve_idempotent_witness :
    SourceImageCachingResolver.is_resolvable ⟨"/cache", "/src"⟩
        ⟨["/cache/x.jp2"], ["/cache"]⟩ "x.jp2" = true ∧
    SourceImageCachingResolver.resolve ⟨"/cache", "/src"⟩
        ⟨["/cache/x.jp2"], ["/cache"]⟩ "x.jp2" =
      (.ok ("/cache/x.jp2", "jp2"), ⟨["/cache/x.jp2"], ["/cache"]⟩, []) :=
  C7_sicr_resolve_idempotent_after_success ⟨"/cache", "/src"⟩
    ⟨["/cache/x.jp2"], ["/cache"]⟩ ⟨["/cache/x.jp2"], ["/cache"]⟩ "x.jp2"
    ("/cache/x.jp2", "jp2") [] (by decide)

/-- C8 (code_bug): populating the cache for a flat identifier whose parent
directory (the cache root itself) already exists makes the unguarded
`makedirs` of `SourceImageCachingResolver.resolve` raise
`OSError` (EEXIST) — the "already exists" outcome is fatal, not
tolerated — while `WebBPLResolver.resolve` on the same shape swallows
the same failure inside a bare `except:` and continues to a successful
return. -/
theorem C8_sicr_makedirs_already_exists_is_fatal :
    SourceImageCachingResolver.resolve ⟨"/cache", "/src"⟩
        ⟨["/src/y.jp2"], ["/cache", "/src"]⟩ "y.jp2" =
      (.error (.osErrorFileExists "/cache"),
        ⟨["/src/y.jp2"], ["/cache", "/src"]⟩, []) ∧
    WebBPLResolver.resolve ⟨"/cache", "http://repo/objects/"⟩
        ⟨["/src/y.jp2"], ["/cache", "/src"]⟩ "y.jp2" =
      (.ok ("/cache/y.jp2", "jp2"),
        ⟨["/cache/y.jp2", "/src/y.jp2"], ["/cache", "/src"]⟩,
        [.urlretrieveEv "http://repo/objects/y.jp2/datastreams/accessMaster/content"
          "/cache/y.jp2"]) := by
  decide

/-- C9 (counterexample): canonicalization is not idempotent — decoding
`%2525` once gives `%25`, decoding it again gives `%`. -/
theorem C9_unquote_not_idempotent :
    unquote (unquote "%2525") ≠ unquote "%2525" := by
  decide

/-- C9 (amended): canonicalization is a function (hence deterministic) and
is idempotent on every identifier whose once-decoded form is
percent-free, but not in general. -/
theorem C9_unquote_idempotent_on_percent_free (s : String)
    (h : '%' ∉ (unquote s).data) :
    unquote (unquote s) = unquote s := by
  have h2 : '%' ∉ unquoteList s.data := h
  show (⟨unquoteList (unquoteList s.data)⟩ : String) = ⟨unquoteList s.data⟩
  rw [unquoteList_of_not_mem _ h2]

/-- C9 (witness): the decoded form of `foo%2Fbar.tif` is percent-free and
decoding it again is the identity. -/
theorem C9_unquote_idempotent_witness :
    ('%' ∉ (unquote "foo%2Fbar.tif").data) ∧
    unquote (unquote "foo%2Fbar.tif") = unquote "foo%2Fbar.tif" :=
  ⟨by decide, C9_unquote_idempotent_on_percent_free "foo%2Fbar.tif" (by decide)⟩

/-- C10 (confirmed): both base-class methods always raise, and the
exception is `NameError` for the undefined name `cn` — evaluated before
the intended `NotImplementedError` could be constructed — for every
class name and identifier. -/
theorem C10_abstract_methods_raise_nameerror (className ident : String) :
    _AbstractResolver.is_resolvable className ident = .error (.nameError "cn") ∧
    _AbstractResolver.resolve className ident = .error (.nameError "cn") :=
  ⟨rfl, rfl⟩

end Loris
